import Mathlib

/-!
Verification of the gnet public API shell (`gnet.go`).

Go strings are byte slices; we embed them as `List Nat` of byte values
(all addresses and schemes in scope are ASCII, where Go's
`strings.ToLower` is the per-byte ASCII case map embedded below).
The separator `"://"` is the byte sequence `[58, 47, 47]`.
-/

namespace Gnet

/-- Byte-list view of an ASCII string literal, used to write concrete inputs. -/
def strB (s : String) : List Nat := s.data.map Char.toNat

/-- ASCII case map on one byte: `strings.ToLower` restricted to ASCII
maps bytes 65..90 (A-Z) to 97..122 (a-z) and leaves the rest unchanged. -/
def toLowerByte (b : Nat) : Nat := if 65 ≤ b ∧ b ≤ 90 then b + 32 else b

/-- Embedding of `strings.ToLower` on ASCII byte strings. -/
def goToLower (s : List Nat) : List Nat := s.map toLowerByte

/-- Whether the byte string starts with the separator `"://"`. -/
def startsWithSep (l : List Nat) : Bool :=
  match l with
  | a :: b :: c :: _ => a == 58 && b == 47 && c == 47
  | _ => false

/-- First occurrence of `"://"` in a byte string: `some (before, after)`
with `before` the bytes preceding the separator and `after` the bytes
following it, or `none` when the separator does not occur. -/
def findSep : List Nat → Option (List Nat × List Nat)
  | [] => none
  | c :: rest =>
    if startsWithSep (c :: rest) then some ([], (c :: rest).drop 3)
    else
      match findSep rest with
      | some (b, a) => some (c :: b, a)
      | none => none

/-- Embedding of `strings.Contains(s, "://")`. -/
def containsSep (l : List Nat) : Bool := (findSep l).isSome

/-- Fuel-driven worker for `splitSep`; the fuel `l.length` always
suffices because each found separator consumes at least three bytes. -/
def splitSepFuel : Nat → List Nat → List (List Nat)
  | 0, l => [l]
  | Nat.succ f, l =>
    match findSep l with
    | none => [l]
    | some (b, a) => b :: splitSepFuel f a

/-- Embedding of `strings.Split(s, "://")`: the segments of `s` around
each non-overlapping occurrence of `"://"`, scanned left to right. -/
def splitSep (l : List Nat) : List (List Nat) := splitSepFuel l.length l

/-- Embedding of `parseAddr` (gnet.go:283-292): lowercase the whole
input, then if it contains `"://"` split on it and take segments 0 and 1
as network and address; otherwise network defaults to `"tcp"` and the
address is the lowercased input. -/
def parseAddr (addr : List Nat) : List Nat × List Nat :=
  let address := goToLower addr
  if containsSep address then
    match splitSep address with
    | network :: address1 :: _ => (network, address1)
    | _ => ([], [])
  else
    (strB "tcp", address)

/-- Modelled from the spec: the per-connection inbound buffer, whose
implementation is not part of `gnet.go` (the `Conn` interface only
declares it). Section 3 of the spec describes it as a ring buffer plus
a loop-local staging buffer; the unconsumed bytes are the ring-buffer
bytes followed by the staging bytes. -/
structure ConnState where
  inboundRing : List Nat
  loopStaging : List Nat
deriving DecidableEq

/-- Modelled from the spec: `Read` returns all currently buffered,
unconsumed bytes without mutating the cursor (peek). -/
def ConnState.Read (c : ConnState) : List Nat := c.inboundRing ++ c.loopStaging

/-- Modelled from the spec: `BufferLength` is the count of currently
unconsumed bytes in the internal buffers. -/
def ConnState.BufferLength (c : ConnState) : Nat := c.Read.length

/-- Modelled from the spec: `ReadN n` returns up to `n` unconsumed
bytes together with the actual count `min n available`, leaving the
buffer state untouched (peek, not consume); it never blocks and never
errors on a short result. -/
def ConnState.ReadN (c : ConnState) (n : Nat) : Nat × List Nat × ConnState :=
  let m := min n c.BufferLength
  (m, c.Read.take m, c)

/-- Modelled from the spec: advancing the read cursor by `m` bytes
evicts `m` bytes as consumed, draining the ring buffer before the
loop-local staging bytes. -/
def ConnState.consume (c : ConnState) (m : Nat) : ConnState :=
  ⟨c.inboundRing.drop m, c.loopStaging.drop (m - c.inboundRing.length)⟩

/-- Modelled from the spec: `ShiftN n` advances the read cursor by
`min n available`, evicting that many bytes, and returns the count
actually shifted; it never errors. -/
def ConnState.ShiftN (c : ConnState) (n : Nat) : Nat × ConnState :=
  let m := min n c.BufferLength
  (m, c.consume m)

/-- Modelled from the spec: `ResetBuffer` discards all buffered bytes
and resets the cursor to empty, for both the ring buffer and the
loop-local staging bytes. -/
def ConnState.ResetBuffer (c : ConnState) : ConnState := ⟨[], []⟩

/-- Embedding of the `Action` enumeration (gnet.go:21-32); the
constructors carry the `iota` codes 0, 1, 2 via `Action.code`. -/
inductive Action where
  | None
  | Close
  | Shutdown
deriving DecidableEq

/-- Numeric value of each `Action` constant as produced by `iota`;
`None` is the zero value of the type. -/
def Action.code : Action → Nat
  | .None => 0
  | .Close => 1
  | .Shutdown => 2

/-- Errors visible at the gnet API surface: the sentinel
`ErrUnsupportedProtocol` and opaque operating-system errors. -/
inductive GoError where
  | unsupportedProtocol
  | osError (msg : List Nat)
deriving DecidableEq

/-- Per-event-loop state needed by `CountConnections`: the `connCount`
counter an event loop maintains for its open connections. -/
structure GServer where
  connCounts : List Int

/-- Embedding of `Server.CountConnections` (gnet.go:68-74): iterate
over the event loops, adding each loop's `connCount` into a running
total that starts at zero. -/
def CountConnections (s : GServer) : Int :=
  s.connCounts.foldl (fun acc c => acc + c) 0

/-- A connection lifecycle event: the loop at index `i` opens or
closes one connection. -/
inductive ConnEvent where
  | opened (i : Nat)
  | closed (i : Nat)

/-- Index of the event loop a lifecycle event happens on. -/
def ConnEvent.loop : ConnEvent → Nat
  | .opened i => i
  | .closed i => i

/-- Whether a lifecycle event is an open. -/
def ConnEvent.isOpen : ConnEvent → Bool
  | .opened _ => true
  | .closed _ => false

/-- Add `d` to the element of `l` at index `i` (no effect past the end). -/
def addAt : List Int → Nat → Int → List Int
  | [], _, _ => []
  | c :: rest, 0, d => (c + d) :: rest
  | c :: rest, Nat.succ i, d => c :: addAt rest i d

/-- Modelled from the spec: each event loop's `connCount` is
incremented when the loop opens a connection and decremented when it
closes one (the loop code maintaining the counter is not part of
`gnet.go`). -/
def applyConnEvent (s : GServer) (e : ConnEvent) : GServer :=
  match e with
  | .opened i => ⟨addAt s.connCounts i 1⟩
  | .closed i => ⟨addAt s.connCounts i (-1)⟩

/-- The `EventServer` base handler (gnet.go:167-168): an empty struct
whose methods supply default no-op implementations of `EventHandler`. -/
structure EventServer where

/-- Embedding of `EventServer.OnInitComplete` (gnet.go:173-175): a bare
`return`, yielding the zero `Action`. -/
def EventServer.OnInitComplete (es : EventServer) (svr : GServer) : Action := Action.None

/-- Embedding of `EventServer.OnShutdown` (gnet.go:179-180): an empty
body, no effect. -/
def EventServer.OnShutdown (es : EventServer) (svr : GServer) : Unit := ()

/-- Embedding of `EventServer.OnOpened` (gnet.go:185-187): a bare
`return`, yielding the nil byte slice and the zero `Action`. -/
def EventServer.OnOpened (es : EventServer) (c : ConnState) : Option (List Nat) × Action :=
  (Option.none, Action.None)

/-- Embedding of `EventServer.OnClosed` (gnet.go:191-193): a bare
`return`, yielding the zero `Action`. -/
def EventServer.OnClosed (es : EventServer) (c : ConnState) (err : Option GoError) : Action :=
  Action.None

/-- Embedding of `EventServer.PreWrite` (gnet.go:197-198): an empty
body, no effect. -/
def EventServer.PreWrite (es : EventServer) : Unit := ()

/-- Embedding of `EventServer.React` (gnet.go:203-205): a bare
`return`, yielding the nil byte slice and the zero `Action`. -/
def EventServer.React (es : EventServer) (frame : List Nat) (c : ConnState) :
    Option (List Nat) × Action :=
  (Option.none, Action.None)

/-- Embedding of `EventServer.Tick` (gnet.go:209-211): a bare `return`,
yielding the zero duration and the zero `Action`. -/
def EventServer.Tick (es : EventServer) : Int × Action := (0, Action.None)

/-- Environment a `Serve` call runs in: the platform and the outcomes
of the operating-system calls and of the internal event-loop run,
which `Serve` consumes but does not control. -/
structure SysEnv where
  goosIsWindows : Bool
  listenErr : Option GoError
  renormErr : Option GoError
  removeStaleErr : Option GoError
  removeFinalErr : Option GoError
  runResult : Option GoError

/-- Observable effects of a `Serve` call, in program order. -/
inductive SEvent where
  | removedStalePath (addr : List Nat)
  | removedFinalPath (addr : List Nat)
  | loggedError (e : GoError)
  | listenerCreated (network addr : List Nat)
  | listenerClosed
  | eventLoopRan
deriving DecidableEq

/-- Embedding of `sniffErrorAndLog` (gnet.go:294-298) at the trace
level: a non-nil error is written to the logger, a nil error is not. -/
def sniffEvents (e : Option GoError) : List SEvent :=
  match e with
  | Option.none => []
  | Option.some err => [SEvent.loggedError err]

/-- Effects of the deferred block in `Serve` (gnet.go:229-234), run
once when `Serve` returns: close the listener, and for a unix-network
listener remove its filesystem socket path, logging (not propagating)
any removal error. -/
def deferEvents (network address : List Nat) (env : SysEnv) : List SEvent :=
  SEvent.listenerClosed ::
    (if network = strB "unix" then
      SEvent.removedFinalPath address :: sniffEvents env.removeFinalErr
    else [])

/-- The tail of `Serve` shared by all supported schemes
(gnet.go:244-280): attempt the listen call; on success renormalize the
listener; on success of that, hand off to the internal event-loop
runner `serve` and return its result. Modelled from the spec for the
runner itself (not part of `gnet.go`): it blocks until a `Shutdown`
action or a fatal error and returns nil on graceful shutdown, which the
environment's `runResult` summarizes. -/
def listenPhase (network address : List Nat) (env : SysEnv) (pre : List SEvent) :
    Option GoError × List SEvent :=
  match env.listenErr with
  | Option.some e => (Option.some e, pre ++ deferEvents network address env)
  | Option.none =>
    match env.renormErr with
    | Option.some e =>
      (Option.some e,
        pre ++ [SEvent.listenerCreated network address] ++ deferEvents network address env)
    | Option.none =>
      (env.runResult,
        pre ++ [SEvent.listenerCreated network address, SEvent.eventLoopRan]
          ++ deferEvents network address env)

/-- Whether the parsed network is one of the datagram schemes of the
`switch` in `Serve` (gnet.go:244). -/
def isUdpScheme (network : List Nat) : Prop :=
  network = strB "udp" ∨ network = strB "udp4" ∨ network = strB "udp6"

/-- Whether the parsed network is one of the stream schemes of the
`switch` in `Serve` (gnet.go:257). -/
def isTcpScheme (network : List Nat) : Prop :=
  network = strB "tcp" ∨ network = strB "tcp4" ∨ network = strB "tcp6"

instance (network : List Nat) : Decidable (isUdpScheme network) := by
  unfold isUdpScheme; infer_instance

instance (network : List Nat) : Decidable (isTcpScheme network) := by
  unfold isTcpScheme; infer_instance

/-- Embedding of `Serve` (gnet.go:227-281): parse the address, switch
on the network scheme — datagram and stream schemes proceed to the
listen phase, `unix` first removes any stale socket path (logging a
failure) and fails with `ErrUnsupportedProtocol` on Windows, any other
scheme fails with `ErrUnsupportedProtocol` — then run the deferred
cleanup on every return path. Returns the error `Serve` returns (nil
as `none`) and the trace of observable effects. -/
def ServeModel (addr : List Nat) (env : SysEnv) : Option GoError × List SEvent :=
  let network := (parseAddr addr).1
  let address := (parseAddr addr).2
  if isUdpScheme network then
    listenPhase network address env []
  else if network = strB "unix" then
    let pre := SEvent.removedStalePath address :: sniffEvents env.removeStaleErr
    if env.goosIsWindows then
      (Option.some GoError.unsupportedProtocol, pre ++ deferEvents network address env)
    else
      listenPhase network address env pre
  else if isTcpScheme network then
    listenPhase network address env []
  else
    (Option.some GoError.unsupportedProtocol, deferEvents network address env)

/-- The setup error of a `Serve` call, read off the `switch` in
`Serve` (gnet.go:243-278): an unsupported scheme (including `unix` on
Windows), a failed listen call, or a failed renormalization; `none`
when setup succeeds and the event-loop runner is reached. -/
def serveSetupErr (addr : List Nat) (env : SysEnv) : Option GoError :=
  let network := (parseAddr addr).1
  let fromCalls : Option GoError :=
    match env.listenErr with
    | Option.some e => Option.some e
    | Option.none => env.renormErr
  if isUdpScheme network then fromCalls
  else if network = strB "unix" then
    if env.goosIsWindows then Option.some GoError.unsupportedProtocol else fromCalls
  else if isTcpScheme network then fromCalls
  else Option.some GoError.unsupportedProtocol

/-- Whether a trace event is the deferred (shutdown-time) removal of a
unix socket path. -/
def SEvent.isFinalRemoval : SEvent → Bool
  | .removedFinalPath _ => true
  | _ => false

/-- Whether a trace event is the creation of a listener. -/
def SEvent.isListenCreation : SEvent → Bool
  | .listenerCreated _ _ => true
  | _ => false

/-- Whether a trace event is the hand-off to the event-loop runner. -/
def SEvent.isLoopRun : SEvent → Bool
  | .eventLoopRan => true
  | _ => false

lemma toLowerByte_beq (b k : Nat) (hk : k < 65) : (toLowerByte b == k) = (b == k) := by
  unfold toLowerByte
  split
  · next h =>
    have h1 : b + 32 ≠ k := by omega
    have h2 : b ≠ k := by omega
    simp [h1, h2]
  · rfl

lemma toLowerByte_idem (b : Nat) : toLowerByte (toLowerByte b) = toLowerByte b := by
  unfold toLowerByte
  by_cases h : 65 ≤ b ∧ b ≤ 90
  · rw [if_pos h, if_neg (by omega : ¬ (65 ≤ b + 32 ∧ b + 32 ≤ 90))]
  · rw [if_neg h, if_neg h]

lemma goToLower_idem (l : List Nat) : goToLower (goToLower l) = goToLower l := by
  induction l with
  | nil => rfl
  | cons c rest ih =>
    simp only [goToLower, List.map_cons] at ih ⊢
    rw [toLowerByte_idem, ih]

lemma goToLower_drop (l : List Nat) (n : Nat) :
    (goToLower l).drop n = goToLower (l.drop n) := by
  induction l generalizing n with
  | nil => simp [goToLower]
  | cons c rest ih =>
    cases n with
    | zero => rfl
    | succ m =>
      simp only [goToLower, List.map_cons, List.drop_succ_cons]
      exact ih m

lemma startsWithSep_toLower (l : List Nat) :
    startsWithSep (goToLower l) = startsWithSep l := by
  match l with
  | [] => rfl
  | [a] => rfl
  | [a, b] => rfl
  | a :: b :: c :: rest =>
    simp only [goToLower, List.map_cons, startsWithSep]
    rw [toLowerByte_beq a 58 (by omega), toLowerByte_beq b 47 (by omega),
      toLowerByte_beq c 47 (by omega)]

lemma findSep_toLower (l : List Nat) :
    findSep (goToLower l) =
      (findSep l).map (fun p => (goToLower p.1, goToLower p.2)) := by
  induction l with
  | nil => rfl
  | cons c rest ih =>
    show findSep (toLowerByte c :: goToLower rest) = _
    unfold findSep
    rw [show startsWithSep (toLowerByte c :: goToLower rest) = startsWithSep (c :: rest) from
      startsWithSep_toLower (c :: rest)]
    by_cases h : startsWithSep (c :: rest) = true
    · rw [if_pos h, if_pos h]
      simp only [Option.map_some, List.drop_succ_cons]
      rw [goToLower_drop]
      rfl
    · rw [if_neg h, if_neg h]
      show (match findSep (goToLower rest) with
        | Option.some (b, a) => Option.some (toLowerByte c :: b, a)
        | Option.none => Option.none) = _
      rw [ih]
      cases hr : findSep rest with
      | none => rfl
      | some p => rfl

lemma containsSep_toLower (l : List Nat) :
    containsSep (goToLower l) = containsSep l := by
  unfold containsSep
  rw [findSep_toLower]
  cases findSep l <;> rfl

lemma splitSep_of_findSep_none {l : List Nat} (h : findSep l = Option.none) :
    splitSep l = [l] := by
  unfold splitSep
  cases l.length with
  | zero => rfl
  | succ f => simp [splitSepFuel, h]

/-- C4 (amended): `parseAddr "tcp://127.0.0.1:9000"` yields network
`"tcp"` and address `"127.0.0.1:9000"`; for an input with no `"://"`
separator, such as `"127.0.0.1:9000"`, the network defaults to `"tcp"`
and the address is the lowercased whole input. -/
theorem c4_parseAddr_scheme_default :
    parseAddr (strB "tcp://127.0.0.1:9000") = (strB "tcp", strB "127.0.0.1:9000") ∧
    parseAddr (strB "127.0.0.1:9000") = (strB "tcp", strB "127.0.0.1:9000") ∧
    ∀ a : List Nat, containsSep a = false → parseAddr a = (strB "tcp", goToLower a) := by
  refine ⟨by decide, by decide, ?_⟩
  intro a h
  have hc : containsSep (goToLower a) = false := by rw [containsSep_toLower]; exact h
  unfold parseAddr
  simp [hc]

/-- C4 witness: the no-separator branch of the theorem at the concrete
input `"localhost:9000"`. -/
theorem c4_parseAddr_scheme_default_witness :
    parseAddr (strB "localhost:9000") = (strB "tcp", goToLower (strB "localhost:9000")) :=
  c4_parseAddr_scheme_default.2.2 (strB "localhost:9000") (by decide)

/-- C4 counterexample: for the separator-free input `"HOST:9000"` the
returned address is the lowercased input `"host:9000"`, not the whole
input itself, so the claim as stated fails. -/
theorem c4_counterexample :
    parseAddr (strB "HOST:9000") = (strB "tcp", strB "host:9000") ∧
    (parseAddr (strB "HOST:9000")).2 ≠ strB "HOST:9000" := by decide

/-- C10: `parseAddr` lowercases the entire input before splitting
(parsing an input and parsing its lowercased form agree, and
`"TCP://HOST:9000"` yields `("tcp", "host:9000")`); and when the
lowercased input splits on `"://"` into three or more segments, the
address is only the segment between the first and second occurrence:
everything after the second `"://"` (the `rest`) is dropped, as on
`"a://b://c"` which yields `("a", "b")`. -/
theorem c10_parseAddr_lowercases_and_drops_tail :
    (∀ a : List Nat, parseAddr a = parseAddr (goToLower a)) ∧
    parseAddr (strB "TCP://HOST:9000") = (strB "tcp", strB "host:9000") ∧
    (∀ (a n ad : List Nat) (rest : List (List Nat)),
      splitSep (goToLower a) = n :: ad :: rest → parseAddr a = (n, ad)) ∧
    parseAddr (strB "a://b://c") = (strB "a", strB "b") := by
  refine ⟨?_, by decide, ?_, by decide⟩
  · intro a
    unfold parseAddr
    rw [goToLower_idem]
  · intro a n ad rest h
    have hc : containsSep (goToLower a) = true := by
      unfold containsSep
      cases hf : findSep (goToLower a) with
      | none =>
        exfalso
        rw [splitSep_of_findSep_none hf] at h
        simp at h
      | some p => rfl
    unfold parseAddr
    simp only [hc, if_true, h]

/-- C10 witness: the multi-separator branch of the theorem at the
concrete input `"x://y://z"`. -/
theorem c10_parseAddr_lowercases_and_drops_tail_witness :
    parseAddr (strB "x://y://z") = (strB "x", strB "y") :=
  c10_parseAddr_lowercases_and_drops_tail.2.2.1 (strB "x://y://z") (strB "x") (strB "y")
    [strB "z"] (by decide)

/-- C1: `ReadN n` returns count `min n (BufferLength)` and the first
`min n (BufferLength)` bytes of `Read`, leaving the buffer state (and
hence a subsequent `Read`) unchanged; for `n ≤ BufferLength` the count
is exactly `n` and exactly `n` bytes are returned. Being a total
function, it never blocks and never errors on a short result. -/
theorem c1_readN_is_peek (c : ConnState) (n : Nat) :
    (c.ReadN n).1 = min n c.BufferLength ∧
    (c.ReadN n).2.1 = c.Read.take (min n c.BufferLength) ∧
    (c.ReadN n).2.2 = c ∧
    (n ≤ c.BufferLength →
      (c.ReadN n).1 = n ∧ (c.ReadN n).2.1 = c.Read.take n ∧ ((c.ReadN n).2.1).length = n) := by
  refine ⟨rfl, rfl, rfl, ?_⟩
  intro h
  have hm : min n c.BufferLength = n := Nat.min_eq_left h
  refine ⟨hm, by rw [show (c.ReadN n).2.1 = c.Read.take (min n c.BufferLength) from rfl, hm], ?_⟩
  rw [show (c.ReadN n).2.1 = c.Read.take (min n c.BufferLength) from rfl, hm, List.length_take]
  exact Nat.min_eq_left h

/-- C1 witness: the theorem at the buffer holding ring bytes `[1, 2]`
and staging byte `[3]`, with `n = 2 ≤ 3 = BufferLength`. -/
theorem c1_readN_is_peek_witness :
    2 ≤ (ConnState.mk [1, 2] [3]).BufferLength ∧
    (ConnState.ReadN ⟨[1, 2], [3]⟩ 2).1 = 2 ∧
    (ConnState.ReadN ⟨[1, 2], [3]⟩ 2).2.1 = (ConnState.mk [1, 2] [3]).Read.take 2 :=
  ⟨by decide, ((c1_readN_is_peek ⟨[1, 2], [3]⟩ 2).2.2.2 (by decide)).1,
    ((c1_readN_is_peek ⟨[1, 2], [3]⟩ 2).2.2.2 (by decide)).2.1⟩

lemma consume_length (c : ConnState) (m : Nat) (h : m ≤ c.BufferLength) :
    (c.consume m).BufferLength = c.BufferLength - m := by
  obtain ⟨r, s⟩ := c
  simp only [ConnState.consume, ConnState.BufferLength, ConnState.Read, List.length_append,
    List.length_drop] at h ⊢
  omega

/-- C2: `ShiftN n` returns `min n (BufferLength)` and decreases
`BufferLength` by exactly that count; on an empty buffer it returns 0
and leaves the state unchanged, so repeating it is idempotent (and as
a total function it never errors). -/
theorem c2_shiftN_decreases_by_min (c : ConnState) (n : Nat) :
    (c.ShiftN n).1 = min n c.BufferLength ∧
    ((c.ShiftN n).2).BufferLength = c.BufferLength - min n c.BufferLength ∧
    (c.BufferLength = 0 → (c.ShiftN n).1 = 0 ∧ (c.ShiftN n).2 = c) := by
  refine ⟨rfl, consume_length c _ (Nat.min_le_right _ _), ?_⟩
  intro h0
  have hm : min n c.BufferLength = 0 := by rw [h0]; exact Nat.min_zero n
  refine ⟨hm, ?_⟩
  show c.consume (min n c.BufferLength) = c
  rw [hm]
  obtain ⟨r, s⟩ := c
  simp [ConnState.consume]

/-- C2 witness: the theorem at the empty buffer with `n = 5`: the
shift returns 0 and changes nothing. -/
theorem c2_shiftN_decreases_by_min_witness :
    (ConnState.ShiftN ⟨[], []⟩ 5).1 = 0 ∧ (ConnState.ShiftN ⟨[], []⟩ 5).2 = ConnState.mk [] [] :=
  (c2_shiftN_decreases_by_min ⟨[], []⟩ 5).2.2 (by decide)

/-- C3: `ResetBuffer` discards all buffered bytes in both the ring
buffer and the loop-local staging bytes, after which `BufferLength`
equals 0, regardless of the prior state. -/
theorem c3_resetBuffer_empties (c : ConnState) :
    (c.ResetBuffer).BufferLength = 0 ∧
    (c.ResetBuffer).inboundRing = [] ∧ (c.ResetBuffer).loopStaging = [] :=
  ⟨rfl, rfl, rfl⟩

/-- C9: every `EventServer` callback is a no-op returning zero values:
`OnInitComplete`, `OnClosed`, `OnOpened`, `React` and `Tick` return
`Action.None` (whose `iota` code is 0, the zero value of `Action`),
`OnOpened` and `React` return the nil byte slice, `Tick` returns a
zero delay, and `OnShutdown` and `PreWrite` have no effect. -/
theorem c9_eventServer_defaults :
    (∀ (es : EventServer) (svr : GServer), es.OnInitComplete svr = Action.None) ∧
    (∀ (es : EventServer) (svr : GServer), es.OnShutdown svr = ()) ∧
    (∀ (es : EventServer) (c : ConnState), es.OnOpened c = (Option.none, Action.None)) ∧
    (∀ (es : EventServer) (c : ConnState) (err : Option GoError),
      es.OnClosed c err = Action.None) ∧
    (∀ es : EventServer, es.PreWrite = ()) ∧
    (∀ (es : EventServer) (frame : List Nat) (c : ConnState),
      es.React frame c = (Option.none, Action.None)) ∧
    (∀ es : EventServer, es.Tick = (0, Action.None)) ∧
    Action.code Action.None = 0 :=
  ⟨fun _ _ => rfl, fun _ _ => rfl, fun _ _ => rfl, fun _ _ _ => rfl, fun _ => rfl,
    fun _ _ _ => rfl, fun _ => rfl, rfl⟩

lemma foldl_add (l : List Int) (acc : Int) :
    l.foldl (fun a c => a + c) acc = acc + l.sum := by
  induction l generalizing acc with
  | nil => simp
  | cons c rest ih =>
    rw [List.foldl_cons, ih, List.sum_cons]
    ring

lemma countConnections_eq_sum (s : GServer) : CountConnections s = s.connCounts.sum := by
  unfold CountConnections
  rw [foldl_add]
  ring

lemma addAt_length (l : List Int) (i : Nat) (d : Int) : (addAt l i d).length = l.length := by
  induction l generalizing i with
  | nil => rfl
  | cons c rest ih =>
    cases i with
    | zero => rfl
    | succ j => simp [addAt, ih]

lemma sum_addAt (l : List Int) (i : Nat) (d : Int) (h : i < l.length) :
    (addAt l i d).sum = l.sum + d := by
  induction l generalizing i with
  | nil => simp at h
  | cons c rest ih =>
    cases i with
    | zero =>
      simp only [addAt, List.sum_cons]
      ring
    | succ j =>
      simp only [addAt, List.sum_cons]
      rw [ih j (by simpa using h)]
      ring

lemma applyConnEvent_length (s : GServer) (e : ConnEvent) :
    (applyConnEvent s e).connCounts.length = s.connCounts.length := by
  cases e <;> simp [applyConnEvent, addAt_length]

lemma countConnections_apply (s : GServer) (e : ConnEvent)
    (h : e.loop < s.connCounts.length) :
    CountConnections (applyConnEvent s e) =
      CountConnections s + (if e.isOpen then 1 else -1) := by
  cases e with
  | opened i =>
    rw [countConnections_eq_sum, countConnections_eq_sum]
    exact sum_addAt _ i 1 h
  | closed i =>
    rw [countConnections_eq_sum, countConnections_eq_sum]
    exact sum_addAt _ i (-1) h

lemma countConnections_foldl (events : List ConnEvent) (s : GServer)
    (hv : ∀ e ∈ events, ConnEvent.loop e < s.connCounts.length) :
    CountConnections (events.foldl applyConnEvent s) =
      CountConnections s + (events.countP ConnEvent.isOpen : Int)
        - (events.countP (fun e => ! ConnEvent.isOpen e) : Int) := by
  induction events generalizing s with
  | nil => simp
  | cons e rest ih =>
    rw [List.foldl_cons, ih (applyConnEvent s e)
      (fun e' he' => by
        rw [applyConnEvent_length]
        exact hv e' (List.mem_cons_of_mem _ he'))]
    rw [countConnections_apply s e (hv e (List.mem_cons_self _ _))]
    rw [List.countP_cons, List.countP_cons]
    cases he : e.isOpen <;> simp [he] <;> omega

/-- C7: starting from all per-loop counters at zero, applying any
sequence of open and close events (each incrementing or decrementing
its loop's counter) leaves `CountConnections`, the sum of the per-loop
counters, equal to the number of opens minus the number of closes —
`N - M` after `N` opens and `M` closes. -/
theorem c7_countConnections_opens_minus_closes (nloops : Nat) (events : List ConnEvent)
    (hv : ∀ e ∈ events, ConnEvent.loop e < nloops) :
    CountConnections (events.foldl applyConnEvent ⟨List.replicate nloops 0⟩) =
      (events.countP ConnEvent.isOpen : Int)
        - (events.countP (fun e => ! ConnEvent.isOpen e) : Int) := by
  rw [countConnections_foldl events ⟨List.replicate nloops 0⟩
    (by simpa using hv)]
  rw [countConnections_eq_sum]
  simp

/-- C7 witness: with two loops and the events open-on-0, open-on-1,
open-on-0, close-on-1 (three opens, one close), the aggregate count is
`3 - 1`. -/
theorem c7_countConnections_opens_minus_closes_witness :
    CountConnections
      ([ConnEvent.opened 0, ConnEvent.opened 1, ConnEvent.opened 0,
        ConnEvent.closed 1].foldl applyConnEvent ⟨List.replicate 2 0⟩) =
      (([ConnEvent.opened 0, ConnEvent.opened 1, ConnEvent.opened 0,
        ConnEvent.closed 1].countP ConnEvent.isOpen : Int))
        - (([ConnEvent.opened 0, ConnEvent.opened 1, ConnEvent.opened 0,
        ConnEvent.closed 1].countP (fun e => ! ConnEvent.isOpen e) : Int)) :=
  c7_countConnections_opens_minus_closes 2
    [ConnEvent.opened 0, ConnEvent.opened 1, ConnEvent.opened 0, ConnEvent.closed 1]
    (by decide)

lemma udp_ne_unix {n : List Nat} (h : isUdpScheme n) : n ≠ strB "unix" := by
  rcases h with h | h | h <;> rw [h] <;> decide

lemma tcp_ne_unix {n : List Nat} (h : isTcpScheme n) : n ≠ strB "unix" := by
  rcases h with h | h | h <;> rw [h] <;> decide

lemma sniff_countP_loopRun (x : Option GoError) :
    (sniffEvents x).countP SEvent.isLoopRun = 0 := by
  cases x <;> rfl

lemma sniff_countP_listenCreation (x : Option GoError) :
    (sniffEvents x).countP SEvent.isListenCreation = 0 := by
  cases x <;> rfl

lemma sniff_countP_finalRemoval (x : Option GoError) :
    (sniffEvents x).countP SEvent.isFinalRemoval = 0 := by
  cases x <;> rfl

lemma serveModel_fst (addr : List Nat) (env : SysEnv) :
    (ServeModel addr env).1 =
      (match serveSetupErr addr env with
       | Option.some e => Option.some e
       | Option.none => env.runResult) := by
  by_cases hu : isUdpScheme (parseAddr addr).1
  · simp only [ServeModel, serveSetupErr, if_pos hu]
    cases hl : env.listenErr <;> cases hr : env.renormErr <;> simp [listenPhase, hl, hr]
  · by_cases hx : (parseAddr addr).1 = strB "unix"
    · by_cases hw : env.goosIsWindows = true
      · simp only [ServeModel, serveSetupErr, if_neg hu, if_pos hx, if_pos hw]
      · simp only [ServeModel, serveSetupErr, if_neg hu, if_pos hx, if_neg hw]
        cases hl : env.listenErr <;> cases hr : env.renormErr <;> simp [listenPhase, hl, hr]
    · by_cases ht : isTcpScheme (parseAddr addr).1
      · simp only [ServeModel, serveSetupErr, if_neg hu, if_neg hx, if_pos ht]
        cases hl : env.listenErr <;> cases hr : env.renormErr <;> simp [listenPhase, hl, hr]
      · simp only [ServeModel, serveSetupErr, if_neg hu, if_neg hx, if_neg ht]

lemma serveModel_loopCount (addr : List Nat) (env : SysEnv) :
    (ServeModel addr env).2.countP SEvent.isLoopRun =
      (if serveSetupErr addr env = Option.none then 1 else 0) := by
  by_cases hu : isUdpScheme (parseAddr addr).1
  · cases hl : env.listenErr <;> cases hr : env.renormErr <;>
      simp [ServeModel, serveSetupErr, hu, listenPhase, hl, hr, deferEvents,
        udp_ne_unix hu, sniff_countP_loopRun, List.countP_cons, List.countP_append,
        SEvent.isLoopRun]
  · by_cases hx : (parseAddr addr).1 = strB "unix"
    · have hu2 : ¬ isUdpScheme (strB "unix") := by decide
      by_cases hw : env.goosIsWindows = true <;>
        cases hl : env.listenErr <;> cases hr : env.renormErr <;>
          simp [ServeModel, serveSetupErr, hu, hu2, hx, hw, listenPhase, hl, hr, deferEvents,
            sniff_countP_loopRun, List.countP_cons, List.countP_append, SEvent.isLoopRun]
    · by_cases ht : isTcpScheme (parseAddr addr).1
      · cases hl : env.listenErr <;> cases hr : env.renormErr <;>
          simp [ServeModel, serveSetupErr, hu, hx, ht, listenPhase, hl, hr, deferEvents,
            tcp_ne_unix ht, sniff_countP_loopRun, List.countP_cons, List.countP_append,
            SEvent.isLoopRun]
      · simp [ServeModel, serveSetupErr, hu, hx, ht, deferEvents, List.countP_cons,
          SEvent.isLoopRun]

/-- C5: when the parsed scheme is none of tcp, tcp4, tcp6, udp, udp4,
udp6, unix — or is unix on a platform without Unix-domain-socket
support (Windows) — `Serve` returns `ErrUnsupportedProtocol` and the
trace contains no listener creation. -/
theorem c5_unsupported_scheme_no_listener (addr : List Nat) (env : SysEnv)
    (h : (¬ isUdpScheme (parseAddr addr).1 ∧ (parseAddr addr).1 ≠ strB "unix" ∧
          ¬ isTcpScheme (parseAddr addr).1) ∨
        ((parseAddr addr).1 = strB "unix" ∧ env.goosIsWindows = true)) :
    (ServeModel addr env).1 = Option.some GoError.unsupportedProtocol ∧
    (ServeModel addr env).2.countP SEvent.isListenCreation = 0 := by
  rcases h with ⟨h1, h2, h3⟩ | ⟨h1, h2⟩
  · simp only [ServeModel, if_neg h1, if_neg h2, if_neg h3]
    exact ⟨by simp, by simp [deferEvents, h2, List.countP_cons, SEvent.isListenCreation]⟩
  · have hu : ¬ isUdpScheme (parseAddr addr).1 := by rw [h1]; decide
    simp only [ServeModel, if_neg hu, if_pos h1, if_pos h2]
    exact ⟨by simp, by
      simp [deferEvents, h1, sniff_countP_listenCreation, List.countP_cons,
        List.countP_append, SEvent.isListenCreation]⟩

/-- C5 witness: the theorem at the concrete address `"foo://x"` on a
non-Windows platform with an error-free environment. -/
theorem c5_unsupported_scheme_no_listener_witness :
    (ServeModel (strB "foo://x")
        ⟨false, Option.none, Option.none, Option.none, Option.none, Option.none⟩).1 =
      Option.some GoError.unsupportedProtocol ∧
    (ServeModel (strB "foo://x")
        ⟨false, Option.none, Option.none, Option.none, Option.none, Option.none⟩).2.countP
      SEvent.isListenCreation = 0 :=
  c5_unsupported_scheme_no_listener (strB "foo://x")
    ⟨false, Option.none, Option.none, Option.none, Option.none, Option.none⟩
    (Or.inl ⟨by decide, by decide, by decide⟩)

/-- C6: every setup error (unsupported scheme, failed listen call,
failed renormalization) is the value `Serve` returns, and the
event-loop runner — the only place callbacks fire — never runs in that
case; when setup succeeds and the run ends in graceful shutdown,
`Serve` returns nil. -/
theorem c6_setup_errors_sync_and_graceful_nil (addr : List Nat) (env : SysEnv) :
    (∀ e : GoError, serveSetupErr addr env = Option.some e →
      (ServeModel addr env).1 = Option.some e ∧
      (ServeModel addr env).2.countP SEvent.isLoopRun = 0) ∧
    (serveSetupErr addr env = Option.none → env.runResult = Option.none →
      (ServeModel addr env).1 = Option.none) := by
  constructor
  · intro e he
    constructor
    · rw [serveModel_fst, he]
    · rw [serveModel_loopCount, if_neg (by simp [he])]
  · intro h1 h2
    rw [serveModel_fst, h1]
    exact h2

/-- C6 witness: the theorem's setup-error branch at the concrete
address `"bar://y"` on Windows with an error-free environment. -/
theorem c6_setup_errors_sync_and_graceful_nil_witness :
    (ServeModel (strB "bar://y")
        ⟨true, Option.none, Option.none, Option.none, Option.none, Option.none⟩).1 =
      Option.some GoError.unsupportedProtocol ∧
    (ServeModel (strB "bar://y")
        ⟨true, Option.none, Option.none, Option.none, Option.none, Option.none⟩).2.countP
      SEvent.isLoopRun = 0 :=
  (c6_setup_errors_sync_and_graceful_nil (strB "bar://y")
      ⟨true, Option.none, Option.none, Option.none, Option.none, Option.none⟩).1
    GoError.unsupportedProtocol (by decide)

/-- C8: for a unix-scheme `Serve` call, the trace holds exactly one
shutdown-time removal of the socket path; a failed stale-path removal
is logged and does not change the returned error, and likewise a
failed shutdown-time removal is logged and does not change the
returned error. -/
theorem c8_unix_socket_cleanup (addr : List Nat) (env : SysEnv)
    (h : (parseAddr addr).1 = strB "unix") :
    (ServeModel addr env).2.countP SEvent.isFinalRemoval = 1 ∧
    (∀ e : GoError, env.removeStaleErr = Option.some e →
      SEvent.loggedError e ∈ (ServeModel addr env).2) ∧
    (∀ e2 : Option GoError,
      (ServeModel addr { env with removeStaleErr := e2 }).1 = (ServeModel addr env).1) ∧
    (∀ e : GoError, env.removeFinalErr = Option.some e →
      SEvent.loggedError e ∈ (ServeModel addr env).2) ∧
    (∀ e2 : Option GoError,
      (ServeModel addr { env with removeFinalErr := e2 }).1 = (ServeModel addr env).1) := by
  have hu : ¬ isUdpScheme (strB "unix") := by decide
  refine ⟨?_, ?_, ?_, ?_, ?_⟩
  · by_cases hw : env.goosIsWindows = true <;>
      cases hl : env.listenErr <;> cases hr : env.renormErr <;>
        simp [ServeModel, h, hu, hw, listenPhase, hl, hr, deferEvents,
          sniff_countP_finalRemoval, List.countP_cons, List.countP_append,
          SEvent.isFinalRemoval]
  · intro e he
    by_cases hw : env.goosIsWindows = true <;>
      cases hl : env.listenErr <;> cases hr : env.renormErr <;>
        simp [ServeModel, h, hu, hw, listenPhase, hl, hr, deferEvents, sniffEvents, he]
  · intro e2
    rw [serveModel_fst, serveModel_fst]
    rfl
  · intro e he
    by_cases hw : env.goosIsWindows = true <;>
      cases hl : env.listenErr <;> cases hr : env.renormErr <;>
        simp [ServeModel, h, hu, hw, listenPhase, hl, hr, deferEvents, sniffEvents, he]
  · intro e2
    rw [serveModel_fst, serveModel_fst]
    rfl

/-- C8 witness: the theorem at the concrete address `"unix://sock"`
with both removal attempts failing: one shutdown removal is traced and
the stale-removal failure is logged. -/
theorem c8_unix_socket_cleanup_witness :
    (ServeModel (strB "unix://sock")
        ⟨false, Option.none, Option.none, Option.some (GoError.osError (strB "stale")),
          Option.some (GoError.osError (strB "final")), Option.none⟩).2.countP
      SEvent.isFinalRemoval = 1 ∧
    SEvent.loggedError (GoError.osError (strB "stale")) ∈
      (ServeModel (strB "unix://sock")
        ⟨false, Option.none, Option.none, Option.some (GoError.osError (strB "stale")),
          Option.some (GoError.osError (strB "final")), Option.none⟩).2 :=
  ⟨(c8_unix_socket_cleanup (strB "unix://sock")
      ⟨false, Option.none, Option.none, Option.some (GoError.osError (strB "stale")),
        Option.some (GoError.osError (strB "final")), Option.none⟩ (by decide)).1,
    (c8_unix_socket_cleanup (strB "unix://sock")
      ⟨false, Option.none, Option.none, Option.some (GoError.osError (strB "stale")),
        Option.some (GoError.osError (strB "final")), Option.none⟩ (by decide)).2.1
      (GoError.osError (strB "stale")) rfl⟩

end Gnet
